import Mathlib

/-
Verification development for the feature-engineering core of the
Hourly-Divvy-Trip-Predictor repository (src/feature_pipeline/feature_engineering.py).

The dataframe is modelled as an ordered list of named columns; each cell is a
`Val` (rational number, string, timestamp, or null).  Timestamps are modelled
as hours since 1970-01-01 00:00 (a Thursday), so `hour = t % 24` and
`dayofweek = (t / 24 + 3) % 7` with Monday = 0.  Fallible pandas operations
(missing column lookups, duplicate-column inserts, Python exceptions) are
modelled with `Except String`.  The two external geocoding services are
modelled as deterministic functions into `Option`: for the forward geocoder,
`some c` means the service returned a result whose last coordinate component
is `c`, and `none` means the call raised or returned no result; for the
reverse geocoder, `some addr` means the service returned an address and
`none` means the call raised.
-/

/-- Value stored in one cell of a dataframe. -/
inductive Val where
  | num : ℚ → Val
  | str : String → Val
  | time : Nat → Val
  | null : Val
  deriving DecidableEq, Repr

/-- A dataframe: ordered, named columns of cell values. -/
structure Table where
  cols : List (String × List Val)
  deriving DecidableEq, Repr

/-- A coordinate, as a (latitude, longitude) pair. -/
abbrev Coord := ℚ × ℚ

def colNames (t : Table) : List String :=
  t.cols.map Prod.fst

def getColAux : List (String × List Val) → String → Except String (List Val)
  | [], name => .error ("KeyError: " ++ name)
  | c :: rest, name => if c.fst = name then .ok c.snd else getColAux rest name

/-- `df[name]`: read a column, KeyError when it is absent. -/
def getCol (t : Table) (name : String) : Except String (List Val) :=
  getColAux t.cols name

def setColAux (name : String) (vals : List Val) : List (String × List Val) → List (String × List Val)
  | [] => []
  | c :: rest => (if c.fst = name then (c.fst, vals) else c) :: setColAux name vals rest

/-- Overwrite the values of an existing column in place (column order preserved). -/
def setCol (t : Table) (name : String) (vals : List Val) : Table :=
  ⟨setColAux name vals t.cols⟩

/-- `df.insert(loc=df.shape[1], column=name, value=vals)`: append a new column at the
end; pandas raises a ValueError when the column already exists. -/
def insertColEnd (t : Table) (name : String) (vals : List Val) : Except String Table :=
  if name ∈ colNames t then .error ("ValueError: cannot insert " ++ name ++ ", already exists")
  else .ok ⟨t.cols ++ [(name, vals)]⟩

def dropAllAux (name : String) (l : List (String × List Val)) : List (String × List Val) :=
  l.filter (fun c => ¬ c.fst = name)

/-- `df.drop(name, axis=1)`: returns a new table without the column, KeyError when absent. -/
def dropColE (t : Table) (name : String) : Except String Table :=
  if name ∈ colNames t then .ok ⟨dropAllAux name t.cols⟩
  else .error ("KeyError: " ++ name)

/-- Number of rows, read off the first column (pandas keeps all columns the same length). -/
def nRows (t : Table) : Nat :=
  match t.cols with
  | [] => 0
  | c :: _ => c.snd.length

/-- Index alignment when a `pd.Series` built from a plain list is assigned to a column:
extra entries are dropped and missing entries become NaN. -/
def adjustLen (vals : List Val) (n : Nat) : List Val :=
  vals.take n ++ List.replicate (n - vals.length) Val.null

/-- `df[name] = pd.Series(vals)`: overwrite the column when it exists, otherwise
append it at the end, in both cases aligned to the row count. -/
def assignCol (t : Table) (name : String) (vals : List Val) : Table :=
  if name ∈ colNames t then setCol t name (adjustLen vals (nRows t))
  else ⟨t.cols ++ [(name, adjustLen vals (nRows t))]⟩

/-- `series.isna().sum()`. -/
def countNulls (vals : List Val) : Nat :=
  vals.countP (fun v => v = Val.null)

/- ---------------------------------------------------------------------------
Geocoder (feature_engineering.py lines 14-74)
--------------------------------------------------------------------------- -/

/-- Message of the attribute error raised in `Geocoder.__init__`. -/
def attrErrMsg : String :=
  "AttributeError: numpy.ndarray object has no attribute to_list"

/-- `Geocoder.__init__`: `self.place_names = self.data[f"{scenario}_station_name"].unique().to_list()`.
Reading the column can raise a KeyError; after that, `Series.unique()` returns a plain
`numpy.ndarray`, which has a `tolist` method but no `to_list` method, so the attribute
access raises unconditionally before any geocoding request can be issued. -/
def Geocoder_place_names (data : Table) (scenario : String) : Except String (List String) := do
  let _vals ← getCol data (scenario ++ "_station_name")
  Except.error attrErrMsg

/-- `Geocoder.geocode._trigger_geocoder` (lines 48-69).  The accumulated dict is an
association list in insertion order.  On success the coordinate extracted from the
result is recorded.  When the try-body fails (the service raises, or returns `None`
so that the `[-1]` subscript raises a TypeError), the handler clause
`except geocoder.geocode(place, timeout=120) is None:` is evaluated: it produces a
`bool`, and Python refuses to catch with a non-exception class, so a TypeError
escapes and the whole call fails.  The `(0, 0)` sentinel branch is unreachable. -/
def triggerGeocoderAux (svc : String → Option Coord) :
    List String → List (String × Coord) → Except String (List (String × Coord))
  | [], acc => .ok acc
  | place :: rest, acc =>
    if place ∈ acc.map Prod.fst then
      triggerGeocoderAux svc rest acc
    else
      match svc place with
      | some point => triggerGeocoderAux svc rest (acc ++ [(place, point)])
      | none =>
        .error "TypeError: catching classes that do not inherit from BaseException is not allowed"

def triggerGeocoder (svc : String → Option Coord) (placeNames : List String) :
    Except String (List (String × Coord)) :=
  triggerGeocoderAux svc placeNames []

/-- Line 72: `[key for key, value in nominatim_results if value == (0, 0)]`.
Iterating a dict yields its keys (strings).  Unpacking a string into `key, value`
succeeds only when the string has exactly two characters (each bound to a
one-character string); any other length raises a ValueError.  A one-character
string is never equal to the tuple `(0, 0)`, so no key is ever collected. -/
def placesMissedByNominatim : List (String × Coord) → Except String (List String)
  | [] => .ok []
  | (key, _) :: rest =>
    if key.length = 2 then placesMissedByNominatim rest
    else .error "ValueError: cannot unpack place name into key, value"

/-- `Geocoder.geocode` (lines 28-74): run the primary pass, collect the
"missed" names, run the secondary pass over them, and return only the
secondary-pass dict. -/
def geocode (primary secondary : String → Option Coord) (placeNames : List String) :
    Except String (List (String × Coord)) := do
  let nominatimResults ← triggerGeocoder primary placeNames
  let placesMissed ← placesMissedByNominatim nominatimResults
  triggerGeocoder secondary placesMissed

/- ---------------------------------------------------------------------------
ReverseGeocoder (lines 77-178)
--------------------------------------------------------------------------- -/

/-- One registry / output record.  `station_id := none` models a dict without the
`station_id` key (as produced by `reverse_geocode`); accessing the key of such a
record raises a KeyError. -/
structure StationRecord where
  station_id : Option Int := none
  station_name : String
  coordinate : Coord
  deriving DecidableEq, Repr

/-- One coordinate through the try/except chain of `reverse_geocode`
(lines 110-120): primary service first, secondary on error, dropped when both
raise. -/
def resolveOne (primary secondary : Coord → Option String) (c : Coord) : Option StationRecord :=
  match primary c with
  | some addr => some { station_id := none, station_name := addr, coordinate := c }
  | none =>
    match secondary c with
    | some addr => some { station_id := none, station_name := addr, coordinate := c }
    | none => none

/-- The loop of `reverse_geocode` (lines 108-128): `encountered` collects the
coordinates that produced a record (the source appends to
`encountered_coordinates` only on the success path), `acc` the output records. -/
def reverse_geocode_aux (primary secondary : Coord → Option String) :
    List Coord → List Coord → List StationRecord → List StationRecord
  | [], _, acc => acc
  | c :: rest, encountered, acc =>
    if c ∈ encountered then
      reverse_geocode_aux primary secondary rest encountered acc
    else
      match resolveOne primary secondary c with
      | some r => reverse_geocode_aux primary secondary rest (encountered ++ [c]) (acc ++ [r])
      | none => reverse_geocode_aux primary secondary rest encountered acc

/-- `ReverseGeocoder.reverse_geocode` (lines 95-130). -/
def reverse_geocode (primary secondary : Coord → Option String) (coordinates : List Coord) :
    List StationRecord :=
  reverse_geocode_aux primary secondary coordinates [] []

/-- First-occurrence deduplication relative to an already-seen list; reference
function used to state what `reverse_geocode` computes. -/
def dedupFirstAux : List Coord → List Coord → List Coord
  | _, [] => []
  | seen, c :: rest =>
    if c ∈ seen then dedupFirstAux seen rest
    else c :: dedupFirstAux (c :: seen) rest

/-- Lines 146-150: collect the distinct `station_id` values of the saved registry in
order of first occurrence; a record without the key raises a KeyError. -/
def establishedIdsAux : List StationRecord → List Int → Except String (List Int)
  | [], acc => .ok acc
  | r :: rest, acc =>
    match r.station_id with
    | none => .error "KeyError: station_id"
    | some i =>
      if i ∈ acc then establishedIdsAux rest acc
      else establishedIdsAux rest (acc ++ [i])

/-- Python `max` over a list: ValueError on the empty list. -/
def listMaxInt : List Int → Except String Int
  | [] => .error "ValueError: max arg is an empty sequence"
  | i :: rest => .ok (rest.foldl max i)

/-- `np.arange(start, stop)` over integers: empty when `stop ≤ start`. -/
def arangeInt (start stop : Int) : List Int :=
  (List.range (stop - start).toNat).map (fun k => start + k)

/-- Lines 157-163: walk the new records assigning `new_ids[new_id_index]` in order. -/
def assignIds : List StationRecord → List Int → List StationRecord
  | [], _ => []
  | _ :: _, [] => []
  | r :: rest, i :: is => { r with station_id := some i } :: assignIds rest is

/-- `ReverseGeocoder.give_ids_to_the_new_names` (lines 132-165).  Note the source
computes `np.arange(start=max(established_ids) + 1, stop=len(established_ids) +
len(new_addresses_and_coordinates) + 1)`; when that range holds fewer entries than
there are new records, the assignment loop raises an IndexError. -/
def give_ids_to_the_new_names
    (new_addresses_and_coordinates saved_geodata : List StationRecord) :
    Except String (List StationRecord) := do
  let established_ids ← establishedIdsAux saved_geodata []
  let mx ← listMaxInt established_ids
  let new_ids := arangeInt (mx + 1)
    (established_ids.length + new_addresses_and_coordinates.length + 1)
  if new_addresses_and_coordinates.length ≤ new_ids.length then
    .ok (assignIds new_addresses_and_coordinates new_ids)
  else
    .error "IndexError: index out of bounds for axis 0"

/- ---------------------------------------------------------------------------
Feature-engineering functions (lines 181-277)
--------------------------------------------------------------------------- -/

/-- Pandas addition on cells: numbers add, anything involving NaN (or a
non-numeric cell) propagates NaN. -/
def valAdd : Val → Val → Val
  | .num a, .num b => .num (a + b)
  | _, _ => .null

/-- Multiplication of a cell by a scalar, NaN propagating. -/
def valScale (q : ℚ) : Val → Val
  | .num a => .num (q * a)
  | _ => .null

/-- `add_avg_trips_last_4_weeks` (lines 181-203): no-op when the column already
exists, otherwise append `0.25 * (c168 + c336 + c504 + c672)` as the last column. -/
def add_avg_trips_last_4_weeks (features : Table) : Except String Table :=
  if "average_trips_last_4_weeks" ∈ colNames features then .ok features
  else do
    let c1 ← getCol features "trips_previous_168_hour"
    let c2 ← getCol features "trips_previous_336_hour"
    let c3 ← getCol features "trips_previous_504_hour"
    let c4 ← getCol features "trips_previous_672_hour"
    let averages :=
      (List.zipWith valAdd (List.zipWith valAdd (List.zipWith valAdd c1 c2) c3) c4).map
        (valScale (1 / 4))
    insertColEnd features "average_trips_last_4_weeks" averages

/-- `pd.to_datetime(col, errors="coerce")` on one cell: a parse failure becomes
NaT (modelled as null). -/
def toDatetimeCoerce (parse : Val → Option Nat) (v : Val) : Val :=
  match parse v with
  | some ts => Val.time ts
  | none => Val.null

/-- `x.hour` on a parsed cell: the hour of day for a timestamp, NaN for NaT. -/
def hourOfVal : Val → Val
  | .time ts => .num ((ts % 24 : Nat) : ℚ)
  | _ => .null

/-- `x.dayofweek` on a parsed cell (Monday = 0; 1970-01-01 was a Thursday). -/
def dayOfWeekVal : Val → Val
  | .time ts => .num (((ts / 24 + 3) % 7 : Nat) : ℚ)
  | _ => .null

/-- `add_hours_and_days` (lines 206-231), keeping both tables it leaves behind:
the first component is the caller's dataframe after the in-place mutations
(`{scenario}_hour` overwritten with the parsed timestamps, `hour` and
`day_of_the_week` inserted at the end); the second is the returned
`features.drop(f"{scenario}_hour", axis=1)`, a copy without that column. -/
def add_hours_and_days_full (parse : Val → Option Nat) (features : Table) (scenario : String) :
    Except String (Table × Table) := do
  let origVals ← getCol features (scenario ++ "_hour")
  let parsed := origVals.map (toDatetimeCoerce parse)
  let f1 := setCol features (scenario ++ "_hour") parsed
  let f2 ← insertColEnd f1 "hour" (parsed.map hourOfVal)
  let f3 ← insertColEnd f2 "day_of_the_week" (parsed.map dayOfWeekVal)
  let dropped ← dropColE f3 (scenario ++ "_hour")
  .ok (f3, dropped)

/-- The value `add_hours_and_days` returns to its caller. -/
def add_hours_and_days (parse : Val → Option Nat) (features : Table) (scenario : String) :
    Except String Table :=
  (add_hours_and_days_full parse features scenario).map Prod.snd

/-- The loop and assignments of `add_coordinates_to_dataframe` (lines 243-249).
For each place name found in the mapping, the source appends
`places_and_points[place][0]` — the first (latitude) component — to **both**
`geodata.latitudes` and `geodata.longitudes`, then assigns the two lists as the
`{scenario}_latitude` and `{scenario}_longitude` columns. -/
def lookupPlace (mapping : List (String × Coord)) (place : String) : Option Coord :=
  (mapping.find? (fun kv => kv.fst = place)).map Prod.snd

def appendCoordinateColumns (features : Table) (scenario : String)
    (placeNames : List String) (placesAndPoints : List (String × Coord)) : Table :=
  assignCol
    (assignCol features (scenario ++ "_latitude")
      (placeNames.filterMap
        (fun place => (lookupPlace placesAndPoints place).map (fun pt => Val.num pt.fst))))
    (scenario ++ "_longitude")
    (placeNames.filterMap
      (fun place => (lookupPlace placesAndPoints place).map (fun pt => Val.num pt.fst)))

/-- `add_coordinates_to_dataframe` (lines 234-251): construct the `Geocoder`
(which computes `place_names`), run `geocode`, then append the coordinate
columns. -/
def add_coordinates_to_dataframe (primary secondary : String → Option Coord)
    (features : Table) (scenario : String) : Except String Table := do
  let placeNames ← Geocoder_place_names features scenario
  let placesAndPoints ← geocode primary secondary placeNames
  .ok (appendCoordinateColumns features scenario placeNames placesAndPoints)

/-- The hour/day and 4-week-average steps of `finish_feature_engineering`
together with its two assert statements (lines 267-273), returning both the
mutated caller dataframe and `final_features`.  In the first assert,
`"day_of_the_week" and "average_trips_last_4_weeks" in final_features.columns`,
the left operand is a non-empty string literal and hence truthy, so only the
membership of the average column is actually checked.  The second assert
evaluates `final_features["day_of_the_week"]` first (a KeyError when absent)
and short-circuits on its null count before touching the average column. -/
def finishPre (parse : Val → Option Nat) (features : Table) (scenario : String) :
    Except String (Table × Table) := do
  let (mutated, features_with_hours_and_days) ← add_hours_and_days_full parse features scenario
  let final_features ← add_avg_trips_last_4_weeks features_with_hours_and_days
  if "average_trips_last_4_weeks" ∈ colNames final_features then
    do
      let dayVals ← getCol final_features "day_of_the_week"
      if countNulls dayVals = 0 then do
        let avgVals ← getCol final_features "average_trips_last_4_weeks"
        if countNulls avgVals = 0 then .ok (mutated, final_features)
        else .error "AssertionError"
      else .error "AssertionError"
  else .error "AssertionError"

/-- `finish_feature_engineering` (lines 254-277).  The geocode branch passes the
original (mutated) `features` object — which still carries `{scenario}_hour` and
never received the average column — to `add_coordinates_to_dataframe`. -/
def finish_feature_engineering (parse : Val → Option Nat)
    (primary secondary : String → Option Coord)
    (features : Table) (scenario : String) (geocode_flag : Bool) : Except String Table := do
  let (mutated, final_features) ← finishPre parse features scenario
  if geocode_flag then add_coordinates_to_dataframe primary secondary mutated scenario
  else .ok final_features

/- ---------------------------------------------------------------------------
Concrete data used to instantiate the theorems below
--------------------------------------------------------------------------- -/

/-- A parse function for timestamps: cells that already hold a timestamp parse
to it, everything else is unparseable. -/
def parseTime : Val → Option Nat
  | .time t => some t
  | _ => none

/-- A forward-geocoding service that always fails. -/
def svcNone : String → Option Coord := fun _ => none

/-- A forward-geocoding service resolving the two-character name "ab". -/
def primAB : String → Option Coord := fun n => if n = "ab" then some (1, 2) else none

/-- A forward-geocoding service resolving the three-character name "abc". -/
def primABC : String → Option Coord := fun n => if n = "abc" then some (1, 2) else none

/-- A reverse-geocoding service resolving only the sample Chicago coordinate. -/
def revChicago : Coord → Option String :=
  fun c => if c = ((4188 : ℚ) / 100, (-8763 : ℚ) / 100) then some "600 E Grand Ave" else none

/-- A reverse-geocoding service that always raises. -/
def revNone : Coord → Option String := fun _ => none

/-- A one-row trip table carrying a parseable timestamp, the four weekly-lag
columns and a station-name column. -/
def sampleFeatures : Table := ⟨[
  ("start_hour", [Val.time 26]),
  ("trips_previous_168_hour", [Val.num 10]),
  ("trips_previous_336_hour", [Val.num 20]),
  ("trips_previous_504_hour", [Val.num 30]),
  ("trips_previous_672_hour", [Val.num 40]),
  ("start_station_name", [Val.str "Navy Pier"])]⟩

/-- `sampleFeatures` after the in-place mutations of `add_hours_and_days`
(timestamp 26 falls at hour 2 of a Friday, day 4 with Monday = 0). -/
def mSample : Table := ⟨[
  ("start_hour", [Val.time 26]),
  ("trips_previous_168_hour", [Val.num 10]),
  ("trips_previous_336_hour", [Val.num 20]),
  ("trips_previous_504_hour", [Val.num 30]),
  ("trips_previous_672_hour", [Val.num 40]),
  ("start_station_name", [Val.str "Navy Pier"]),
  ("hour", [Val.num 2]),
  ("day_of_the_week", [Val.num 4])]⟩

/-- The table `add_hours_and_days` returns for `sampleFeatures`. -/
def sampleDropped : Table := ⟨[
  ("trips_previous_168_hour", [Val.num 10]),
  ("trips_previous_336_hour", [Val.num 20]),
  ("trips_previous_504_hour", [Val.num 30]),
  ("trips_previous_672_hour", [Val.num 40]),
  ("start_station_name", [Val.str "Navy Pier"]),
  ("hour", [Val.num 2]),
  ("day_of_the_week", [Val.num 4])]⟩

/-- `sampleDropped` with the 4-week average appended: the `final_features` of
`finish_feature_engineering` on `sampleFeatures`.  The average cell is written
in the unnormalized form the computation produces; it equals 25. -/
def finalSample : Table := ⟨[
  ("trips_previous_168_hour", [Val.num 10]),
  ("trips_previous_336_hour", [Val.num 20]),
  ("trips_previous_504_hour", [Val.num 30]),
  ("trips_previous_672_hour", [Val.num 40]),
  ("start_station_name", [Val.str "Navy Pier"]),
  ("hour", [Val.num 2]),
  ("day_of_the_week", [Val.num 4]),
  ("average_trips_last_4_weeks", [Val.num (1 / 4 * (10 + 20 + 30 + 40))])]⟩

/-- A trip table whose `start_hour` cell does not parse as a timestamp. -/
def badFeatures : Table := ⟨[
  ("start_hour", [Val.str "garbage"]),
  ("trips_previous_168_hour", [Val.num 10]),
  ("trips_previous_336_hour", [Val.num 20]),
  ("trips_previous_504_hour", [Val.num 30]),
  ("trips_previous_672_hour", [Val.num 40])]⟩

/-- `badFeatures` after the in-place mutations of `add_hours_and_days`:
the unparseable cell becomes NaT and the derived cells become null. -/
def mBad : Table := ⟨[
  ("start_hour", [Val.null]),
  ("trips_previous_168_hour", [Val.num 10]),
  ("trips_previous_336_hour", [Val.num 20]),
  ("trips_previous_504_hour", [Val.num 30]),
  ("trips_previous_672_hour", [Val.num 40]),
  ("hour", [Val.null]),
  ("day_of_the_week", [Val.null])]⟩

/-- The table `add_hours_and_days` returns for `badFeatures`. -/
def fwhdBad : Table := ⟨[
  ("trips_previous_168_hour", [Val.num 10]),
  ("trips_previous_336_hour", [Val.num 20]),
  ("trips_previous_504_hour", [Val.num 30]),
  ("trips_previous_672_hour", [Val.num 40]),
  ("hour", [Val.null]),
  ("day_of_the_week", [Val.null])]⟩

/-- `fwhdBad` with the 4-week average appended. -/
def finalBad : Table := ⟨[
  ("trips_previous_168_hour", [Val.num 10]),
  ("trips_previous_336_hour", [Val.num 20]),
  ("trips_previous_504_hour", [Val.num 30]),
  ("trips_previous_672_hour", [Val.num 40]),
  ("hour", [Val.null]),
  ("day_of_the_week", [Val.null]),
  ("average_trips_last_4_weeks", [Val.num (1 / 4 * (10 + 20 + 30 + 40))])]⟩

/-- A table carrying only the four weekly-lag columns, with lag values
10, 20, 30 and 40. -/
def avgTable : Table := ⟨[
  ("trips_previous_168_hour", [Val.num 10]),
  ("trips_previous_336_hour", [Val.num 20]),
  ("trips_previous_504_hour", [Val.num 30]),
  ("trips_previous_672_hour", [Val.num 40])]⟩

/- ---------------------------------------------------------------------------
Supporting lemmas
--------------------------------------------------------------------------- -/

lemma exbind_ok {α β : Type} (a : α) (f : α → Except String β) :
    (Except.ok a >>= f) = f a := rfl

lemma exbind_err {α β : Type} (e : String) (f : α → Except String β) :
    ((Except.error e : Except String α) >>= f) = Except.error e := rfl

lemma expure_eq_ok {α : Type} (a : α) : (pure a : Except String α) = Except.ok a := rfl

lemma getColAux_ok_mem {l : List (String × List Val)} {name : String} {v : List Val}
    (h : getColAux l name = .ok v) : name ∈ l.map Prod.fst := by
  induction l with
  | nil => simp [getColAux] at h
  | cons c rest ih =>
    rw [getColAux] at h
    by_cases hc : c.fst = name
    · simp [hc]
    · rw [if_neg hc] at h
      simpa using Or.inr (ih h)

lemma getColAux_mem_ok {l : List (String × List Val)} {name : String}
    (h : name ∈ l.map Prod.fst) : ∃ v, getColAux l name = .ok v := by
  induction l with
  | nil => simp at h
  | cons c rest ih =>
    by_cases hc : c.fst = name
    · exact ⟨c.snd, by rw [getColAux, if_pos hc]⟩
    · have : name ∈ rest.map Prod.fst := by
        rcases List.mem_cons.mp h with h1 | h1
        · exact absurd h1.symm hc
        · exact h1
      obtain ⟨v, hv⟩ := ih this
      exact ⟨v, by rw [getColAux, if_neg hc]; exact hv⟩

lemma getColAux_not_mem {l : List (String × List Val)} {name : String}
    (h : name ∉ l.map Prod.fst) : getColAux l name = .error ("KeyError: " ++ name) := by
  induction l with
  | nil => rfl
  | cons c rest ih =>
    simp only [List.map_cons, List.mem_cons, not_or] at h
    rw [getColAux, if_neg (fun hc => h.1 hc.symm)]
    exact ih h.2

lemma map_fst_setColAux (name : String) (vals : List Val) (l : List (String × List Val)) :
    (setColAux name vals l).map Prod.fst = l.map Prod.fst := by
  induction l with
  | nil => rfl
  | cons c rest ih =>
    rw [setColAux]
    by_cases hc : c.fst = name
    · simp [if_pos hc, ih]
    · simp [if_neg hc, ih]

lemma colNames_setCol (t : Table) (name : String) (vals : List Val) :
    colNames (setCol t name vals) = colNames t :=
  map_fst_setColAux name vals t.cols

lemma getColAux_setColAux_self {l : List (String × List Val)} {name : String}
    (vals : List Val) (h : name ∈ l.map Prod.fst) :
    getColAux (setColAux name vals l) name = .ok vals := by
  induction l with
  | nil => simp at h
  | cons c rest ih =>
    rw [setColAux]
    by_cases hc : c.fst = name
    · rw [if_pos hc, getColAux, if_pos hc]
    · rw [if_neg hc, getColAux, if_neg hc]
      refine ih ?_
      rcases List.mem_cons.mp h with h1 | h1
      · exact absurd h1.symm hc
      · exact h1

lemma getColAux_setColAux_ne {l : List (String × List Val)} {m name : String}
    (vals : List Val) (hne : m ≠ name) :
    getColAux (setColAux name vals l) m = getColAux l m := by
  induction l with
  | nil => rfl
  | cons c rest ih =>
    rw [setColAux]
    by_cases hc : c.fst = name
    · rw [if_pos hc, getColAux, getColAux, if_neg (hc ▸ fun h => hne h.symm),
        if_neg (fun h => hne (hc ▸ h).symm)]
      exact ih
    · by_cases hm : c.fst = m
      · rw [if_neg hc, getColAux, getColAux, if_pos hm, if_pos hm]
      · rw [if_neg hc, getColAux, getColAux, if_neg hm, if_neg hm]
        exact ih

lemma getColAux_append_not_mem {l r : List (String × List Val)} {name : String}
    (h : name ∉ l.map Prod.fst) : getColAux (l ++ r) name = getColAux r name := by
  induction l with
  | nil => rfl
  | cons c rest ih =>
    simp only [List.map_cons, List.mem_cons, not_or] at h
    rw [List.cons_append, getColAux, if_neg (fun hc => h.1 hc.symm)]
    exact ih h.2

lemma getColAux_append_single_ne {l : List (String × List Val)} {m name : String}
    (w : List Val) (hne : m ≠ name) : getColAux (l ++ [(name, w)]) m = getColAux l m := by
  induction l with
  | nil => rw [List.nil_append, getColAux, getColAux, if_neg (fun h => hne h.symm)]; rfl
  | cons c rest ih =>
    by_cases hm : c.fst = m
    · rw [List.cons_append, getColAux, getColAux, if_pos hm, if_pos hm]
    · rw [List.cons_append, getColAux, getColAux, if_neg hm, if_neg hm]
      exact ih

lemma map_fst_dropAllAux (name : String) (l : List (String × List Val)) :
    name ∉ (dropAllAux name l).map Prod.fst := by
  intro h
  rw [List.mem_map] at h
  obtain ⟨c, hc, hfst⟩ := h
  rw [dropAllAux, List.mem_filter] at hc
  exact (of_decide_eq_true hc.2) hfst

lemma getColAux_dropAllAux_ne {l : List (String × List Val)} {m name : String}
    (hne : m ≠ name) : getColAux (dropAllAux name l) m = getColAux l m := by
  induction l with
  | nil => rfl
  | cons c rest ih =>
    rw [dropAllAux, List.filter_cons]
    by_cases hc : c.fst = name
    · rw [if_neg (by simpa using hc), getColAux,
        if_neg (fun hm => hne (hm.symm.trans hc))]
      exact ih
    · rw [if_pos (by simpa using hc), getColAux, getColAux]
      by_cases hm : c.fst = m
      · rw [if_pos hm, if_pos hm]
      · rw [if_neg hm, if_neg hm]
        exact ih

lemma adjustLen_length (vals : List Val) (n : Nat) : (adjustLen vals n).length = n := by
  rw [adjustLen, List.length_append, List.length_take, List.length_replicate]
  omega

lemma dedupFirstAux_congr (l : List Coord) :
    ∀ (s₁ s₂ : List Coord), (∀ x : Coord, x ∈ s₁ ↔ x ∈ s₂) →
      dedupFirstAux s₁ l = dedupFirstAux s₂ l := by
  induction l with
  | nil => intro s₁ s₂ _; rfl
  | cons c rest ih =>
    intro s₁ s₂ h
    by_cases hc : c ∈ s₁
    · rw [dedupFirstAux, dedupFirstAux, if_pos hc, if_pos ((h c).mp hc)]
      exact ih s₁ s₂ h
    · rw [dedupFirstAux, dedupFirstAux, if_neg hc, if_neg (fun hx => hc ((h c).mpr hx))]
      rw [ih (c :: s₁) (c :: s₂) (fun x => by simp [h x])]

lemma filterMap_dedup_cons_failed (primary secondary : Coord → Option String) (c : Coord)
    (hc : resolveOne primary secondary c = none) (l : List Coord) :
    ∀ seen : List Coord,
      List.filterMap (resolveOne primary secondary) (dedupFirstAux (c :: seen) l)
        = List.filterMap (resolveOne primary secondary) (dedupFirstAux seen l) := by
  induction l with
  | nil => intro _; rfl
  | cons c' rest ih =>
    intro seen
    by_cases h1 : c' ∈ seen
    · rw [dedupFirstAux, dedupFirstAux, if_pos h1, if_pos (List.mem_cons_of_mem c h1)]
      exact ih seen
    · by_cases h2 : c' = c
      · subst h2
        rw [dedupFirstAux, dedupFirstAux, if_pos (List.mem_cons_self c' seen), if_neg h1,
          List.filterMap_cons, hc]
      · have h3 : c' ∉ c :: seen := by simp [h1, h2]
        rw [dedupFirstAux, dedupFirstAux, if_neg h3, if_neg h1,
          List.filterMap_cons, List.filterMap_cons]
        have hperm : dedupFirstAux (c' :: c :: seen) rest = dedupFirstAux (c :: c' :: seen) rest :=
          dedupFirstAux_congr rest _ _ (fun x => by constructor <;> (intro hx; simp at hx ⊢; tauto))
        rw [hperm, ih (c' :: seen)]

lemma reverse_geocode_aux_eq (primary secondary : Coord → Option String) (l : List Coord) :
    ∀ (enc : List Coord) (acc : List StationRecord),
      reverse_geocode_aux primary secondary l enc acc
        = acc ++ List.filterMap (resolveOne primary secondary) (dedupFirstAux enc l) := by
  induction l with
  | nil => intro enc acc; simp [reverse_geocode_aux, dedupFirstAux]
  | cons c rest ih =>
    intro enc acc
    by_cases hc : c ∈ enc
    · rw [reverse_geocode_aux, dedupFirstAux, if_pos hc, if_pos hc]
      exact ih enc acc
    · cases hr : resolveOne primary secondary c with
      | some r =>
        simp only [reverse_geocode_aux, dedupFirstAux, if_neg hc, hr]
        rw [ih (enc ++ [c]) (acc ++ [r]), List.filterMap_cons, hr,
          dedupFirstAux_congr rest (enc ++ [c]) (c :: enc)
            (fun x => by simp [List.mem_append, or_comm]),
          List.append_assoc]
        rfl
      | none =>
        simp only [reverse_geocode_aux, dedupFirstAux, if_neg hc, hr]
        rw [ih enc acc, List.filterMap_cons, hr, filterMap_dedup_cons_failed _ _ c hr rest enc]

lemma resolveOne_coordinate {primary secondary : Coord → Option String} {c : Coord}
    {r : StationRecord} (h : resolveOne primary secondary c = some r) : r.coordinate = c := by
  rw [resolveOne] at h
  cases hp : primary c with
  | some addr => rw [hp] at h; cases h; rfl
  | none =>
    rw [hp] at h
    cases hs : secondary c with
    | some addr => rw [hs] at h; cases h; rfl
    | none => rw [hs] at h; cases h

lemma mem_filterMap_coordinate {primary secondary : Coord → Option String}
    {l : List Coord} {r : StationRecord}
    (h : r ∈ List.filterMap (resolveOne primary secondary) l) : r.coordinate ∈ l := by
  rw [List.mem_filterMap] at h
  obtain ⟨c, hc, hres⟩ := h
  rw [resolveOne_coordinate hres]
  exact hc

lemma dedupFirstAux_not_mem_seen (l : List Coord) :
    ∀ (seen : List Coord) (x : Coord), x ∈ dedupFirstAux seen l → x ∉ seen := by
  induction l with
  | nil => intro seen x hx; simp [dedupFirstAux] at hx
  | cons c rest ih =>
    intro seen x hx
    rw [dedupFirstAux] at hx
    by_cases hc : c ∈ seen
    · rw [if_pos hc] at hx
      exact ih seen x hx
    · rw [if_neg hc] at hx
      rcases List.mem_cons.mp hx with h1 | h1
      · exact h1 ▸ hc
      · have := ih (c :: seen) x h1
        exact fun hs => this (List.mem_cons_of_mem c hs)

lemma dedupFirstAux_nodup (l : List Coord) :
    ∀ seen : List Coord, (dedupFirstAux seen l).Nodup := by
  induction l with
  | nil => intro _; simp [dedupFirstAux]
  | cons c rest ih =>
    intro seen
    rw [dedupFirstAux]
    by_cases hc : c ∈ seen
    · rw [if_pos hc]; exact ih seen
    · rw [if_neg hc, List.nodup_cons]
      refine ⟨fun hmem => ?_, ih (c :: seen)⟩
      exact dedupFirstAux_not_mem_seen rest (c :: seen) c hmem (List.mem_cons_self c seen)

lemma countP_filterMap_resolve_le_one (primary secondary : Coord → Option String) (c : Coord)
    (l : List Coord) (hnd : l.Nodup) :
    (List.filterMap (resolveOne primary secondary) l).countP
      (fun r => decide (r.coordinate = c)) ≤ 1 := by
  induction l with
  | nil => simp
  | cons c' rest ih =>
    rw [List.nodup_cons] at hnd
    rw [List.filterMap_cons]
    cases hr : resolveOne primary secondary c' with
    | none => exact ih hnd.2
    | some r =>
      rw [List.countP_cons]
      by_cases hrc : r.coordinate = c
      · have h0 : (List.filterMap (resolveOne primary secondary) rest).countP
            (fun r => decide (r.coordinate = c)) = 0 := by
          rw [List.countP_eq_zero]
          intro r' hr' hdec
          have hmem : r'.coordinate ∈ rest := mem_filterMap_coordinate hr'
          have hc' : c' = c := (resolveOne_coordinate hr) ▸ hrc
          have : r'.coordinate = c := of_decide_eq_true hdec
          exact hnd.1 (by rw [this, ← hc'] at hmem; exact hmem)
        simp [h0, hrc]
      · rw [decide_eq_false hrc]
        simpa using ih hnd.2

lemma colNames_mk (l : List (String × List Val)) : colNames ⟨l⟩ = l.map Prod.fst := rfl

lemma scenario_hour_ne_hour (scenario : String) : scenario ++ "_hour" ≠ "hour" := by
  intro h
  have hl := congrArg String.length h
  rw [String.length_append] at hl
  have h5 : ("_hour" : String).length = 5 := by decide
  have h4 : ("hour" : String).length = 4 := by decide
  omega

lemma scenario_hour_ne_day (scenario : String) :
    scenario ++ "_hour" ≠ "day_of_the_week" := by
  intro h
  have hd := congrArg String.data h
  rw [String.data_append] at hd
  have h1 := congrArg List.getLast? hd
  have h2 : ("_hour" : String).data = ['_', 'h', 'o', 'u'] ++ ['r'] := by decide
  rw [h2, ← List.append_assoc, List.getLast?_concat] at h1
  have h3 : ("day_of_the_week" : String).data.getLast? = some 'k' := by decide
  rw [h3] at h1
  exact absurd h1 (by decide)

lemma scenario_lat_ne_lon (scenario : String) :
    scenario ++ "_latitude" ≠ scenario ++ "_longitude" := by
  intro h
  have hl := congrArg String.length h
  rw [String.length_append, String.length_append] at hl
  have h9 : ("_latitude" : String).length = 9 := by decide
  have h10 : ("_longitude" : String).length = 10 := by decide
  omega

lemma add_hours_full_ok_inv {parse : Val → Option Nat} {features : Table} {scenario : String}
    {m d : Table} (h : add_hours_and_days_full parse features scenario = .ok (m, d)) :
    ∃ origVals, getCol features (scenario ++ "_hour") = .ok origVals ∧
      "hour" ∉ colNames features ∧ "day_of_the_week" ∉ colNames features ∧
      m.cols = setColAux (scenario ++ "_hour") (origVals.map (toDatetimeCoerce parse)) features.cols
          ++ [("hour", (origVals.map (toDatetimeCoerce parse)).map hourOfVal),
              ("day_of_the_week", (origVals.map (toDatetimeCoerce parse)).map dayOfWeekVal)] ∧
      d.cols = dropAllAux (scenario ++ "_hour") m.cols := by
  unfold add_hours_and_days_full at h
  cases h0 : getCol features (scenario ++ "_hour") with
  | error e => rw [h0, exbind_err] at h; simp at h
  | ok origVals =>
    rw [h0, exbind_ok] at h
    dsimp only at h
    unfold insertColEnd at h
    split_ifs at h with hm1
    · rw [exbind_err] at h
      simp at h
    · rw [exbind_ok] at h
      split_ifs at h with hm2
      · rw [exbind_err] at h
        simp at h
      · rw [exbind_ok] at h
        unfold dropColE at h
        split_ifs at h with hm3
        · rw [exbind_ok] at h
          have hpair := Except.ok.inj h
          have hm := (Prod.mk.inj hpair).1
          have hd := (Prod.mk.inj hpair).2
          refine ⟨origVals, rfl, ?_, ?_, ?_, ?_⟩
          · rw [colNames_setCol] at hm1
            exact hm1
          · intro hmem
            apply hm2
            rw [colNames_mk, List.map_append]
            apply List.mem_append_left
            show "day_of_the_week" ∈
              colNames (setCol features (scenario ++ "_hour")
                (List.map (toDatetimeCoerce parse) origVals))
            rw [colNames_setCol]
            exact hmem
          · rw [← hm]
            simp [setCol]
          · rw [← hd, ← hm]
        · rw [exbind_err] at h
          simp at h

lemma finishPre_ok_inv {parse : Val → Option Nat} {features : Table} {scenario : String}
    {m fin : Table} (h : finishPre parse features scenario = .ok (m, fin)) :
    ∃ fwhd, add_hours_and_days_full parse features scenario = .ok (m, fwhd) ∧
      add_avg_trips_last_4_weeks fwhd = .ok fin ∧
      "average_trips_last_4_weeks" ∈ colNames fin ∧
      (∃ dv, getCol fin "day_of_the_week" = .ok dv ∧ countNulls dv = 0) ∧
      (∃ av, getCol fin "average_trips_last_4_weeks" = .ok av ∧ countNulls av = 0) := by
  unfold finishPre at h
  cases h0 : add_hours_and_days_full parse features scenario with
  | error e => rw [h0, exbind_err] at h; simp at h
  | ok p =>
    obtain ⟨m', fwhd⟩ := p
    rw [h0, exbind_ok] at h
    dsimp only at h
    cases h1 : add_avg_trips_last_4_weeks fwhd with
    | error e => rw [h1, exbind_err] at h; simp at h
    | ok fin' =>
      rw [h1, exbind_ok] at h
      split_ifs at h with hA
      · cases h2 : getCol fin' "day_of_the_week" with
        | error e => rw [h2, exbind_err] at h; simp at h
        | ok dv =>
          rw [h2, exbind_ok] at h
          split_ifs at h with hD
          · cases h3 : getCol fin' "average_trips_last_4_weeks" with
            | error e => rw [h3, exbind_err] at h; simp at h
            | ok av =>
              rw [h3, exbind_ok] at h
              split_ifs at h with hAv
              · have hpair := Except.ok.inj h
                have hm := (Prod.mk.inj hpair).1
                have hf := (Prod.mk.inj hpair).2
                subst hm
                subst hf
                exact ⟨fwhd, rfl, h1, hA, ⟨dv, h2, hD⟩, ⟨av, h3, hAv⟩⟩

lemma add_avg_mem_eq {t : Table} (hm : "average_trips_last_4_weeks" ∈ colNames t) :
    add_avg_trips_last_4_weeks t = .ok t := by
  unfold add_avg_trips_last_4_weeks
  rw [if_pos hm]

lemma add_avg_eq_append {t : Table} {c1 c2 c3 c4 : List Val}
    (hm : "average_trips_last_4_weeks" ∉ colNames t)
    (h1 : getCol t "trips_previous_168_hour" = .ok c1)
    (h2 : getCol t "trips_previous_336_hour" = .ok c2)
    (h3 : getCol t "trips_previous_504_hour" = .ok c3)
    (h4 : getCol t "trips_previous_672_hour" = .ok c4) :
    add_avg_trips_last_4_weeks t = .ok ⟨t.cols ++
      [("average_trips_last_4_weeks",
        (List.zipWith valAdd (List.zipWith valAdd (List.zipWith valAdd c1 c2) c3) c4).map
          (valScale (1 / 4)))]⟩ := by
  unfold add_avg_trips_last_4_weeks
  rw [if_neg hm, h1, exbind_ok, h2, exbind_ok, h3, exbind_ok, h4, exbind_ok]
  dsimp only
  unfold insertColEnd
  rw [if_neg hm]

lemma add_avg_ok_mem {t t' : Table} (h : add_avg_trips_last_4_weeks t = .ok t') :
    "average_trips_last_4_weeks" ∈ colNames t' := by
  unfold add_avg_trips_last_4_weeks at h
  split_ifs at h with hm
  · rw [Except.ok.inj h] at hm
    exact hm
  · cases h1 : getCol t "trips_previous_168_hour" with
    | error e => rw [h1, exbind_err] at h; simp at h
    | ok c1 =>
      rw [h1, exbind_ok] at h
      cases h2 : getCol t "trips_previous_336_hour" with
      | error e => rw [h2, exbind_err] at h; simp at h
      | ok c2 =>
        rw [h2, exbind_ok] at h
        cases h3 : getCol t "trips_previous_504_hour" with
        | error e => rw [h3, exbind_err] at h; simp at h
        | ok c3 =>
          rw [h3, exbind_ok] at h
          cases h4 : getCol t "trips_previous_672_hour" with
          | error e => rw [h4, exbind_err] at h; simp at h
          | ok c4 =>
            rw [h4, exbind_ok] at h
            dsimp only at h
            unfold insertColEnd at h
            rw [if_neg hm] at h
            rw [← Except.ok.inj h, colNames_mk, List.map_append]
            exact List.mem_append_right _ (by simp)

lemma nRows_setCol_adjust (t : Table) (n : String) (w : List Val) :
    nRows (setCol t n (adjustLen w (nRows t))) = nRows t := by
  rcases t with ⟨l⟩
  cases l with
  | nil => rfl
  | cons c rest =>
    show nRows ⟨setColAux n (adjustLen w c.snd.length) (c :: rest)⟩ = _
    unfold setColAux
    by_cases hcf : c.fst = n
    · rw [if_pos hcf]
      show (adjustLen w c.snd.length).length = c.snd.length
      exact adjustLen_length w c.snd.length
    · rw [if_neg hcf]
      rfl

lemma nRows_append_adjust (t : Table) (n : String) (w : List Val) :
    nRows ⟨t.cols ++ [(n, adjustLen w (nRows t))]⟩ = nRows t := by
  rcases t with ⟨l⟩
  cases l with
  | nil =>
    show (adjustLen w 0).length = 0
    exact adjustLen_length w 0
  | cons c rest => rfl

lemma nRows_assignCol (t : Table) (n : String) (v : List Val) :
    nRows (assignCol t n v) = nRows t := by
  unfold assignCol
  split_ifs with hm
  · exact nRows_setCol_adjust t n v
  · exact nRows_append_adjust t n v

lemma getCol_assignCol_self (t : Table) (n : String) (v : List Val) :
    getCol (assignCol t n v) n = .ok (adjustLen v (nRows t)) := by
  unfold assignCol
  split_ifs with hm
  · exact getColAux_setColAux_self _ hm
  · show getColAux (t.cols ++ [(n, adjustLen v (nRows t))]) n = _
    rw [getColAux_append_not_mem hm]
    simp [getColAux]

lemma getCol_assignCol_other {t : Table} {m n : String} (v : List Val) (hne : m ≠ n) :
    getCol (assignCol t n v) m = getCol t m := by
  unfold assignCol
  split_ifs with hmem
  · exact getColAux_setColAux_ne _ hne
  · exact getColAux_append_single_ne _ hne

/- ---------------------------------------------------------------------------
Claim theorems
--------------------------------------------------------------------------- -/

/-- C1: the documented example fails on the code.  With a registry whose station_ids
are 5 and 9 and three new records, `give_ids_to_the_new_names` computes
`np.arange(start=10, stop=2+3+1=6)`, an empty range, and the assignment loop
raises an IndexError instead of assigning the IDs 10, 11, 12.  The function
only behaves as specified when the registry IDs are dense: with IDs 1 and 2
the same three records do receive the consecutive IDs 3, 4, 5. -/
theorem give_ids_crashes_on_sparse_registry :
    give_ids_to_the_new_names
        [{ station_name := "new one", coordinate := (2, 2) },
         { station_name := "new two", coordinate := (3, 3) },
         { station_name := "new three", coordinate := (4, 4) }]
        [{ station_id := some 5, station_name := "A", coordinate := (0, 0) },
         { station_id := some 9, station_name := "B", coordinate := (1, 1) }]
      = .error "IndexError: index out of bounds for axis 0" ∧
    give_ids_to_the_new_names
        [{ station_name := "new one", coordinate := (2, 2) },
         { station_name := "new two", coordinate := (3, 3) },
         { station_name := "new three", coordinate := (4, 4) }]
        [{ station_id := some 1, station_name := "A", coordinate := (0, 0) },
         { station_id := some 2, station_name := "B", coordinate := (1, 1) }]
      = .ok
        [{ station_id := some 3, station_name := "new one", coordinate := (2, 2) },
         { station_id := some 4, station_name := "new two", coordinate := (3, 3) },
         { station_id := some 5, station_name := "new three", coordinate := (4, 4) }] :=
  ⟨rfl, rfl⟩

/-- C2: `Geocoder.geocode` does not return an entry for every requested name.
With the single name "ab", which the primary service resolves to (1, 2), the
returned mapping is empty: only the secondary-pass dict is returned, and the
miss-collection step never retries anything.  With the three-character name
"abc" (also resolved by the primary service) the miss-collection step itself
raises a ValueError while unpacking the dict keys. -/
theorem geocode_loses_primary_results :
    primAB "ab" = some (1, 2) ∧
    geocode primAB svcNone ["ab"] = .ok [] ∧
    primABC "abc" = some (1, 2) ∧
    geocode primABC svcNone ["abc"]
      = .error "ValueError: cannot unpack place name into key, value" :=
  ⟨rfl, rfl, rfl, rfl⟩

/-- C3: a geocoding-service failure is not degraded to the (0, 0) sentinel.
When the primary service fails on "Navy Pier", the broken handler clause
`except geocoder.geocode(place, timeout=120) is None:` names a bool rather
than an exception class, so the batch aborts with a TypeError instead of
recording (0, 0) and continuing. -/
theorem geocode_failure_is_fatal :
    svcNone "Navy Pier" = none ∧
    geocode svcNone svcNone ["Navy Pier"]
      = .error "TypeError: catching classes that do not inherit from BaseException is not allowed" ∧
    triggerGeocoder svcNone ["Navy Pier"]
      = .error "TypeError: catching classes that do not inherit from BaseException is not allowed" :=
  ⟨rfl, rfl, rfl⟩

/-- C5: with `geocode = true`, `finish_feature_engineering` never returns the
promised table.  On `sampleFeatures` the hour/day/average steps and both
asserts succeed, but the geocode branch passes the mutated original dataframe
— which still carries `start_hour` and never received
`average_trips_last_4_weeks` — to `add_coordinates_to_dataframe`, and that
call raises the `Geocoder.__init__` attribute error, so no table with the
hour, day, average and coordinate columns is ever produced. -/
theorem finish_geocode_never_returns_table :
    finishPre parseTime sampleFeatures "start" = .ok (mSample, finalSample) ∧
    "average_trips_last_4_weeks" ∉ colNames mSample ∧
    ("start" ++ "_hour") ∈ colNames mSample ∧
    finish_feature_engineering parseTime svcNone svcNone sampleFeatures "start" true
      = .error attrErrMsg :=
  ⟨rfl, by decide, by decide, rfl⟩

/-- C7: `add_avg_trips_last_4_weeks` is idempotent (applying it twice is the
same as applying it once, also through every error case); when the average
column is absent it appends, as the last column,
`0.25 * (c168 + c336 + c504 + c672)` computed cellwise from the four
weekly-lag columns; and on the lag cells 10, 20, 30, 40 that formula yields
exactly 25. -/
theorem add_avg_trips_spec (t : Table) :
    ((add_avg_trips_last_4_weeks t).bind add_avg_trips_last_4_weeks
      = add_avg_trips_last_4_weeks t) ∧
    (∀ c1 c2 c3 c4 : List Val, "average_trips_last_4_weeks" ∉ colNames t →
      getCol t "trips_previous_168_hour" = .ok c1 →
      getCol t "trips_previous_336_hour" = .ok c2 →
      getCol t "trips_previous_504_hour" = .ok c3 →
      getCol t "trips_previous_672_hour" = .ok c4 →
      add_avg_trips_last_4_weeks t = .ok ⟨t.cols ++
        [("average_trips_last_4_weeks",
          (List.zipWith valAdd (List.zipWith valAdd (List.zipWith valAdd c1 c2) c3) c4).map
            (valScale (1 / 4)))]⟩) ∧
    valScale (1 / 4)
        (valAdd (valAdd (valAdd (Val.num 10) (Val.num 20)) (Val.num 30)) (Val.num 40))
      = Val.num 25 := by
  refine ⟨?_, ?_, ?_⟩
  · cases hres : add_avg_trips_last_4_weeks t with
    | error e => rfl
    | ok t' => exact add_avg_mem_eq (add_avg_ok_mem hres)
  · intro c1 c2 c3 c4 hm h1 h2 h3 h4
    exact add_avg_eq_append hm h1 h2 h3 h4
  · show Val.num (1 / 4 * (10 + 20 + 30 + 40)) = Val.num 25
    have : (1 / 4 : ℚ) * (10 + 20 + 30 + 40) = 25 := by norm_num
    rw [this]

/-- C7 witness: on the concrete lag table with values 10, 20, 30, 40 the
average column is appended last with the value 25, and a second application
is a no-op. -/
theorem add_avg_trips_spec_witness :
    add_avg_trips_last_4_weeks avgTable
      = .ok ⟨avgTable.cols ++
          [("average_trips_last_4_weeks", [Val.num (1 / 4 * (10 + 20 + 30 + 40))])]⟩ ∧
    (add_avg_trips_last_4_weeks avgTable).bind add_avg_trips_last_4_weeks
      = add_avg_trips_last_4_weeks avgTable ∧
    (1 / 4 : ℚ) * (10 + 20 + 30 + 40) = 25 := by
  refine ⟨?_, (add_avg_trips_spec avgTable).1, by norm_num⟩
  exact (add_avg_trips_spec avgTable).2.1 [Val.num 10] [Val.num 20] [Val.num 30] [Val.num 40]
    (by decide) rfl rfl rfl rfl

/-- C4: whenever, after the hour/day and 4-week-average transforms, the
`day_of_the_week` or `average_trips_last_4_weeks` column is absent from the
resulting table or contains nulls, `finish_feature_engineering` aborts with an
error instead of returning a table (for either value of the geocode flag and
any services).  The absence of `day_of_the_week` escapes the first assert —
whose left operand is a truthy string literal — but still aborts as a KeyError
when the second assert reads the column. -/
theorem finish_feature_engineering_aborts (parse : Val → Option Nat)
    (features : Table) (scenario : String) (m fwhd fin : Table)
    (h1 : add_hours_and_days_full parse features scenario = .ok (m, fwhd))
    (h2 : add_avg_trips_last_4_weeks fwhd = .ok fin)
    (hbad : "day_of_the_week" ∉ colNames fin ∨
            "average_trips_last_4_weeks" ∉ colNames fin ∨
            (∃ dv, getCol fin "day_of_the_week" = .ok dv ∧ countNulls dv ≠ 0) ∨
            (∃ av, getCol fin "average_trips_last_4_weeks" = .ok av ∧ countNulls av ≠ 0)) :
    ∀ (geocode_flag : Bool) (primary secondary : String → Option Coord),
      (finish_feature_engineering parse primary secondary features scenario geocode_flag).isOk
        = false := by
  intro g p s
  unfold finish_feature_engineering
  cases hp : finishPre parse features scenario with
  | error e => rfl
  | ok pr =>
    exfalso
    obtain ⟨m', fin'⟩ := pr
    obtain ⟨fwhd', hfull, havg, hA, ⟨dv, hdv, hdc⟩, ⟨av, hav, hac⟩⟩ := finishPre_ok_inv hp
    rw [h1] at hfull
    have hw : fwhd = fwhd' := (Prod.mk.inj (Except.ok.inj hfull)).2
    rw [← hw, h2] at havg
    have hfin : fin = fin' := Except.ok.inj havg
    rcases hbad with hb | hb | ⟨dv', hdv', hnz⟩ | ⟨av', hav', hnz⟩
    · exact hb (hfin ▸ getColAux_ok_mem hdv)
    · exact hb (hfin ▸ hA)
    · rw [← hfin] at hdv
      rw [hdv'] at hdv
      exact hnz ((Except.ok.inj hdv) ▸ hdc)
    · rw [← hfin] at hav
      rw [hav'] at hav
      exact hnz ((Except.ok.inj hav) ▸ hac)

/-- C4 witness: on a table whose `start_hour` cell does not parse, the derived
`day_of_the_week` column contains a null, and `finish_feature_engineering`
aborts for both values of the geocode flag. -/
theorem finish_feature_engineering_aborts_witness :
    (finish_feature_engineering parseTime svcNone svcNone badFeatures "start" false).isOk
      = false ∧
    (finish_feature_engineering parseTime svcNone svcNone badFeatures "start" true).isOk
      = false := by
  have h := finish_feature_engineering_aborts parseTime badFeatures "start" mBad fwhdBad
    finalBad rfl rfl (Or.inr (Or.inr (Or.inl ⟨[Val.null], rfl, by decide⟩)))
  exact ⟨h false svcNone svcNone, h true svcNone svcNone⟩

lemma Geocoder_place_names_error {data : Table} {scenario : String}
    (hmem : (scenario ++ "_station_name") ∈ colNames data) :
    Geocoder_place_names data scenario = .error attrErrMsg := by
  obtain ⟨v, hv⟩ := getColAux_mem_ok hmem
  unfold Geocoder_place_names getCol
  rw [hv, exbind_ok]

lemma add_coordinates_error {data : Table} {scenario : String}
    (hmem : (scenario ++ "_station_name") ∈ colNames data)
    (primary secondary : String → Option Coord) :
    add_coordinates_to_dataframe primary secondary data scenario = .error attrErrMsg := by
  unfold add_coordinates_to_dataframe
  rw [Geocoder_place_names_error hmem, exbind_err]

/-- C10: for every table that carries the `{scenario}_station_name` column,
constructing a `Geocoder` fails with the attribute error (the plain array
returned by `unique()` has no `to_list` method), so every call of
`add_coordinates_to_dataframe` fails the same way — for arbitrary services,
before any geocoding request is issued — and every call of
`finish_feature_engineering` with the geocode flag set that reaches the
geocode branch fails with that same attribute error. -/
theorem geocoder_construction_attribute_error (data : Table) (scenario : String)
    (parse : Val → Option Nat)
    (hmem : (scenario ++ "_station_name") ∈ colNames data) :
    Geocoder_place_names data scenario = .error attrErrMsg ∧
    (∀ primary secondary : String → Option Coord,
      add_coordinates_to_dataframe primary secondary data scenario = .error attrErrMsg) ∧
    (∀ (primary secondary : String → Option Coord) (m fin : Table),
      finishPre parse data scenario = .ok (m, fin) →
      finish_feature_engineering parse primary secondary data scenario true
        = .error attrErrMsg) := by
  refine ⟨Geocoder_place_names_error hmem, fun p s => add_coordinates_error hmem p s, ?_⟩
  intro p s m fin hpre
  unfold finish_feature_engineering
  rw [hpre, exbind_ok]
  obtain ⟨fwhd, hfull, _⟩ := finishPre_ok_inv hpre
  obtain ⟨ov, _, _, _, hmcols, _⟩ := add_hours_full_ok_inv hfull
  have hmemm : (scenario ++ "_station_name") ∈ colNames m := by
    show _ ∈ m.cols.map Prod.fst
    rw [hmcols, List.map_append, map_fst_setColAux]
    exact List.mem_append_left _ hmem
  exact add_coordinates_error hmemm p s

/-- C10 witness: on the concrete sample table, the Geocoder construction, the
`add_coordinates_to_dataframe` call and the geocode-enabled
`finish_feature_engineering` call all fail with the attribute error. -/
theorem geocoder_construction_attribute_error_witness :
    Geocoder_place_names sampleFeatures "start" = .error attrErrMsg ∧
    add_coordinates_to_dataframe svcNone svcNone sampleFeatures "start" = .error attrErrMsg ∧
    finish_feature_engineering parseTime svcNone svcNone sampleFeatures "start" true
      = .error attrErrMsg := by
  obtain ⟨ha, hb, hc⟩ :=
    geocoder_construction_attribute_error sampleFeatures "start" parseTime (by decide)
  exact ⟨ha, hb svcNone svcNone, hc svcNone svcNone mSample finalSample rfl⟩

/-- C8: when `add_hours_and_days` returns a table, that table no longer
contains the `{scenario}_hour` column; its `hour` and `day_of_the_week`
columns are obtained by parsing the original `{scenario}_hour` column and
taking the hour and day of week cellwise; every cell that parses yields an
hour in [0, 23] and a day in [0, 6]; and every cell that fails to parse
yields null in both derived columns rather than an error. -/
theorem add_hours_and_days_spec (parse : Val → Option Nat) (features : Table)
    (scenario : String) (t : Table)
    (h : add_hours_and_days parse features scenario = .ok t) :
    (scenario ++ "_hour") ∉ colNames t ∧
    (∃ origVals, getCol features (scenario ++ "_hour") = .ok origVals ∧
      getCol t "hour" = .ok ((origVals.map (toDatetimeCoerce parse)).map hourOfVal) ∧
      getCol t "day_of_the_week"
        = .ok ((origVals.map (toDatetimeCoerce parse)).map dayOfWeekVal)) ∧
    (∀ (v : Val) (ts : Nat), parse v = some ts →
      hourOfVal (toDatetimeCoerce parse v) = .num ((ts % 24 : Nat) : ℚ) ∧
      (0 : ℚ) ≤ ((ts % 24 : Nat) : ℚ) ∧ ((ts % 24 : Nat) : ℚ) ≤ 23 ∧
      dayOfWeekVal (toDatetimeCoerce parse v) = .num (((ts / 24 + 3) % 7 : Nat) : ℚ) ∧
      (0 : ℚ) ≤ (((ts / 24 + 3) % 7 : Nat) : ℚ) ∧ (((ts / 24 + 3) % 7 : Nat) : ℚ) ≤ 6) ∧
    (∀ v : Val, parse v = none →
      hourOfVal (toDatetimeCoerce parse v) = .null ∧
      dayOfWeekVal (toDatetimeCoerce parse v) = .null) := by
  unfold add_hours_and_days at h
  cases hf : add_hours_and_days_full parse features scenario with
  | error e => rw [hf] at h; simp [Except.map] at h
  | ok p =>
    obtain ⟨m, d⟩ := p
    rw [hf] at h
    have ht : d = t := Except.ok.inj h
    subst ht
    obtain ⟨ov, hov, hhour, hday, hmcols, hdcols⟩ := add_hours_full_ok_inv hf
    refine ⟨?_, ⟨ov, hov, ?_, ?_⟩, ?_, ?_⟩
    · show _ ∉ d.cols.map Prod.fst
      rw [hdcols]
      exact map_fst_dropAllAux _ _
    · show getColAux d.cols "hour" = _
      rw [hdcols, getColAux_dropAllAux_ne (scenario_hour_ne_hour scenario).symm, hmcols,
        getColAux_append_not_mem (by rw [map_fst_setColAux]; exact hhour)]
      simp [getColAux]
    · show getColAux d.cols "day_of_the_week" = _
      rw [hdcols, getColAux_dropAllAux_ne (scenario_hour_ne_day scenario).symm, hmcols,
        getColAux_append_not_mem (by rw [map_fst_setColAux]; exact hday)]
      simp [getColAux]
    · intro v ts hv
      unfold toDatetimeCoerce
      rw [hv]
      have hh : ts % 24 ≤ 23 := by omega
      have hd : (ts / 24 + 3) % 7 ≤ 6 := by omega
      refine ⟨rfl, Nat.cast_nonneg _, ?_, rfl, Nat.cast_nonneg _, ?_⟩
      · exact_mod_cast hh
      · exact_mod_cast hd
    · intro v hv
      unfold toDatetimeCoerce
      rw [hv]
      exact ⟨rfl, rfl⟩

/-- C8 witness: on the concrete sample table (timestamp 26, i.e. hour 2 of a
Friday), the returned table lacks `start_hour` and carries the derived hour 2
and day-of-week 4. -/
theorem add_hours_and_days_spec_witness :
    ("start" ++ "_hour") ∉ colNames sampleDropped ∧
    getCol sampleDropped "hour" = .ok [Val.num 2] ∧
    getCol sampleDropped "day_of_the_week" = .ok [Val.num 4] := by
  obtain ⟨h1, ⟨ov, hov, hh, hd⟩, _, _⟩ :=
    add_hours_and_days_spec parseTime sampleFeatures "start" sampleDropped rfl
  have hov2 : (Except.ok ov : Except String (List Val)) = .ok [Val.time 26] :=
    hov.symm.trans (by rfl)
  have hove : ov = [Val.time 26] := Except.ok.inj hov2
  subst hove
  exact ⟨h1, hh, hd⟩

/-- C6: with the services modelled as deterministic functions (`none` meaning
the call raises), `reverse_geocode` equals first-occurrence deduplication of
the input followed by per-coordinate resolution (primary service first,
secondary on error, dropped when both fail) — which is exactly input order,
minus skipped duplicates and dropped failures; hence it outputs at most one
record per distinct coordinate, and no record at all for a coordinate on
which both services fail.  On the documented input
[(41.88, -87.63), (41.88, -87.63), (0, 0)], when the primary service resolves
the first coordinate and both services fail on (0, 0), the output is exactly
one record for (41.88, -87.63). -/
theorem reverse_geocode_spec (primary secondary : Coord → Option String)
    (coordinates : List Coord) :
    reverse_geocode primary secondary coordinates
      = List.filterMap (resolveOne primary secondary) (dedupFirstAux [] coordinates) ∧
    (∀ c : Coord,
      (reverse_geocode primary secondary coordinates).countP
        (fun r => decide (r.coordinate = c)) ≤ 1) ∧
    (∀ c : Coord, primary c = none → secondary c = none →
      ∀ r ∈ reverse_geocode primary secondary coordinates, r.coordinate ≠ c) ∧
    (∀ a : String,
      primary ((4188 : ℚ) / 100, (-8763 : ℚ) / 100) = some a →
      primary (0, 0) = none → secondary (0, 0) = none →
      reverse_geocode primary secondary
          [((4188 : ℚ) / 100, (-8763 : ℚ) / 100), ((4188 : ℚ) / 100, (-8763 : ℚ) / 100),
           (0, 0)]
        = [{ station_id := none, station_name := a,
             coordinate := ((4188 : ℚ) / 100, (-8763 : ℚ) / 100) }]) := by
  have hchar : reverse_geocode primary secondary coordinates
      = List.filterMap (resolveOne primary secondary) (dedupFirstAux [] coordinates) := by
    rw [reverse_geocode, reverse_geocode_aux_eq primary secondary coordinates [] [],
      List.nil_append]
  refine ⟨hchar, ?_, ?_, ?_⟩
  · intro c
    rw [hchar]
    exact countP_filterMap_resolve_le_one primary secondary c _
      (dedupFirstAux_nodup coordinates [])
  · intro c hp hs r hr hrc
    rw [hchar, List.mem_filterMap] at hr
    obtain ⟨c', hc', hres⟩ := hr
    have hcc := resolveOne_coordinate hres
    rw [show c' = c from hcc.symm.trans hrc] at hres
    have hnone : resolveOne primary secondary c = none := by
      unfold resolveOne
      rw [hp, hs]
    rw [hnone] at hres
    cases hres
  · intro a ha hp hs
    have hne : (0 : Coord) ≠ ((4188 : ℚ) / 100, (-8763 : ℚ) / 100) := by
      intro hq
      have h1 := congrArg Prod.fst hq
      norm_num at h1
    have hres1 : resolveOne primary secondary ((4188 : ℚ) / 100, (-8763 : ℚ) / 100)
        = some { station_id := none, station_name := a,
                 coordinate := ((4188 : ℚ) / 100, (-8763 : ℚ) / 100) } := by
      unfold resolveOne
      rw [ha]
    have hp0 : primary (0 : Coord) = none := hp
    have hs0 : secondary (0 : Coord) = none := hs
    have hres0 : resolveOne primary secondary (0 : Coord) = none := by
      unfold resolveOne
      rw [hp0, hs0]
    simp [reverse_geocode, reverse_geocode_aux, hres1, hres0, hne]

/-- C6 witness: concrete services — the primary resolving (41.88, -87.63) to
"600 E Grand Ave" and failing elsewhere, the secondary always failing —
produce exactly one record on the documented input. -/
theorem reverse_geocode_spec_witness :
    reverse_geocode revChicago revNone
        [((4188 : ℚ) / 100, (-8763 : ℚ) / 100), ((4188 : ℚ) / 100, (-8763 : ℚ) / 100), (0, 0)]
      = [{ station_id := none, station_name := "600 E Grand Ave",
           coordinate := ((4188 : ℚ) / 100, (-8763 : ℚ) / 100) }] := by
  refine (reverse_geocode_spec revChicago revNone []).2.2.2 "600 E Grand Ave" ?_ ?_ rfl
  · simp [revChicago]
  · have hne : ((0 : ℚ), (0 : ℚ)) ≠ ((4188 : ℚ) / 100, (-8763 : ℚ) / 100) := by
      intro hq
      have h1 := congrArg Prod.fst hq
      norm_num at h1
    simp only [revChicago]
    rw [if_neg hne]

/-- C9 counterexample: on a concrete table with a station-name column (and for
concrete services), `add_coordinates_to_dataframe` does not append any
coordinate columns at all — it fails with the `Geocoder.__init__` attribute
error before the appending loop can run, so it never returns a table. -/
theorem add_coordinates_never_appends :
    add_coordinates_to_dataframe svcNone svcNone sampleFeatures "start" = .error attrErrMsg ∧
    (add_coordinates_to_dataframe svcNone svcNone sampleFeatures "start").isOk = false :=
  ⟨rfl, rfl⟩

/-- C9 amended: the coordinate-appending step of `add_coordinates_to_dataframe`
(the loop over place names and the two column assignments, taken on their own)
appends the first component of each resolved point — the latitude — to both
the `{scenario}_latitude` and the `{scenario}_longitude` column, so the two
columns it produces are equal element-wise; but `add_coordinates_to_dataframe`
itself always fails in the `Geocoder` construction before reaching this step. -/
theorem appendCoordinateColumns_duplicates_latitude (features : Table) (scenario : String)
    (placeNames : List String) (placesAndPoints : List (String × Coord)) :
    ∃ vals,
      getCol (appendCoordinateColumns features scenario placeNames placesAndPoints)
        (scenario ++ "_latitude") = .ok vals ∧
      getCol (appendCoordinateColumns features scenario placeNames placesAndPoints)
        (scenario ++ "_longitude") = .ok vals := by
  unfold appendCoordinateColumns
  refine ⟨adjustLen (placeNames.filterMap
      (fun place => (lookupPlace placesAndPoints place).map (fun pt => Val.num pt.fst)))
      (nRows features), ?_, ?_⟩
  · rw [getCol_assignCol_other _ (scenario_lat_ne_lon scenario), getCol_assignCol_self]
  · rw [getCol_assignCol_self, nRows_assignCol]
